/-
Verification development for apt-show-versions (apt-show-versions.cc).

The C++ program walks APT's package cache and prints, per package, a
one-line verdict describing how the installed version relates to the
versions offered by the configured repositories.

Shallow embedding conventions:
  * A cache version (pkgCache::VerIterator target) becomes a VerNode carrying
    the numeric identity field ID, the version string and the ordered list of
    origin files (the VerFileIterator chain).
  * A package's version list (p.VersionList()) is a List VerNode in cache
    order (descending version rank).  The installed version pointer
    (p.CurrentVer()) is modelled by its position in that list, because the
    C++ code reads the NextVer link of the installed version, i.e. asks
    whether it is the last node of the chain.  The candidate pointer
    (policy->GetCandidateVer) is likewise a position.
  * Dereferencing an end iterator (reading a field of a version or
    version-file that is not there) reads unspecified cache memory in the
    original; every such read is modelled as the value none, and functions
    that can perform one return an Option.
  * The static memoization table of find_distribution_name is threaded
    explicitly as an association list keyed by the origin-file ID.
  * Output to stdout is accumulated as a String.
-/
import Mathlib

namespace AptShowVersions

/-- One repository index file as it appears in the cache
(pkgCache::PkgFileIterator): identity, archive label, codename label,
site string and the NotSource flag. -/
structure OriginFile where
  id : Nat
  archive : String
  codename : String
  site : String
  notSource : Bool
deriving DecidableEq

/-- One version of a package (pkgCache::VerIterator): identity field ID,
version string, and its origin-file chain (FileList()). -/
structure VerNode where
  id : Nat
  verStr : String
  origins : List OriginFile
deriving DecidableEq

/-- One configured sources.list entry (pkgSourceList entry): its
distribution string (GetDist()) and, for each of its index files, the
cache file the FindInCache lookup resolves to (none when the lookup
fails to find the index file in the cache). -/
structure SourceEntry where
  dist : String
  indexFiles : List (Option Nat)
deriving DecidableEq

/-- The memoization table of find_distribution_name, keyed by file ID. -/
abbrev Memo := List (Nat × String)

/-- A package (pkgCache::PkgIterator).  currentIdx / candidateIdx are the
positions of the installed and candidate versions inside versions (none for
an end iterator).  The three dpkg state fields are the raw enum numbers. -/
structure Pkg where
  fullname : String
  versions : List VerNode
  currentIdx : Option Nat
  candidateIdx : Option Nat
  selectedState : Nat
  instState : Nat
  currentState : Nat
deriving DecidableEq

/-- The upgrade_state enumeration of the source, in declaration order. -/
inductive UpgradeState where
  | notInstalled
  | notAvail
  | upToDate
  | downgrade
  | automatic
  | manual
deriving DecidableEq

/-- Numeric value of an upgrade_state, matching the C enum order
(UPGRADE_NOT_INSTALLED = 0 .. UPGRADE_MANUAL = 5). -/
def stateRank : UpgradeState → Nat
  | UpgradeState.notInstalled => 0
  | UpgradeState.notAvail => 1
  | UpgradeState.upToDate => 2
  | UpgradeState.downgrade => 3
  | UpgradeState.automatic => 4
  | UpgradeState.manual => 5

/-- The constructor APT::PackageSet::FromString reports for a resolved
pattern (APT::PackageContainerInterface::Constructor).  A plain package
name yields unknown. -/
inductive Constructor where
  | unknown
  | regex
  | fnmatch
  | task
deriving DecidableEq

/-- Option bag of the program (the APT::Show-Versions::* configuration
booleans). -/
structure Opts where
  upgradesOnly : Bool
  brief : Bool
  allVersions : Bool
  noHold : Bool
  regexAll : Bool
deriving DecidableEq

/-- The result of resolving one command-line pattern: the pattern string,
the constructor the resolver reports, and the resolved packages in
iteration order. -/
structure PatternResult where
  pattern : String
  ctor : Constructor
  pkgs : List Pkg

/- ------------------------------------------------------------------ -/
/- find_distribution_name (Suite Attributor)                           -/
/- ------------------------------------------------------------------ -/

/-- distro.erase(distro.find_first_of('/')): keep the characters before
the first '/' of the distribution string. -/
def truncate_dist (d : String) : String :=
  String.mk (d.toList.takeWhile (fun c => c ≠ '/'))

/-- Inner loop of find_distribution_name over one source entry's index
files: on an index file whose FindInCache result is the queried file,
accept the (truncated) distribution string when it equals the file's
non-empty archive or non-empty codename, otherwise keep scanning. -/
def scan_files (f : OriginFile) (dist : String) : List (Option Nat) → Option String
  | [] => none
  | of :: rest =>
    if of = some f.id then
      let distro := truncate_dist dist
      if (f.archive ≠ "" ∧ distro = f.archive) ∨ (f.codename ≠ "" ∧ distro = f.codename) then
        some distro
      else
        scan_files f dist rest
    else
      scan_files f dist rest

/-- Outer loop of find_distribution_name over the configured source
entries. -/
def scan_sources (f : OriginFile) : List SourceEntry → Option String
  | [] => none
  | e :: rest =>
    match scan_files f e.dist e.indexFiles with
    | some d => some d
    | none => scan_sources f rest

/-- find_distribution_name: memo lookup, then the sources.list scan, then
the archive / codename / empty fallback; every computed result is
memoized under the file's ID. -/
def find_distribution_name (sources : List SourceEntry) (memo : Memo) (f : OriginFile) :
    String × Memo :=
  match memo.lookup f.id with
  | some s => (s, memo)
  | none =>
    let r :=
      match scan_sources f sources with
      | some d => d
      | none =>
        if f.archive ≠ "" then f.archive
        else if f.codename ≠ "" then f.codename
        else ""
    (r, (f.id, r) :: memo)

/-- Declarative restatement of claim C2's description of the Suite
Attributor, for comparison with find_distribution_name: the first source
entry whose index files contain the queried file and whose truncated
distribution string equals the file's non-empty archive or non-empty
codename wins; otherwise the archive / codename / empty fallback; the
result is memoized keyed by the file's identity. -/
def fdn_spec (sources : List SourceEntry) (memo : Memo) (f : OriginFile) :
    String × Memo :=
  match memo.lookup f.id with
  | some s => (s, memo)
  | none =>
    let r :=
      match sources.findSome? (fun e =>
        let distro := truncate_dist e.dist
        if (some f.id) ∈ e.indexFiles ∧
            ((f.archive ≠ "" ∧ distro = f.archive) ∨ (f.codename ≠ "" ∧ distro = f.codename)) then
          some distro
        else none) with
      | some d => d
      | none =>
        if f.archive ≠ "" then f.archive
        else if f.codename ≠ "" then f.codename
        else ""
    (r, (f.id, r) :: memo)

/- ------------------------------------------------------------------ -/
/- my_name (Display-Name Builder)                                      -/
/- ------------------------------------------------------------------ -/

/-- Loop body of my_name.  The C++ loop is
  for (auto vf = c.FileList(); c.IsGood(); c++)
so vf is initialised once to the first origin file of the version c and
never advanced: every iteration inspects the same file f, and the number
of iterations is the number of versions from c to the end of the chain.
n counts the remaining iterations; my and pr are the accumulator variables
my and prio of the source. -/
def my_name_loop (name : String) (prio : Nat → Int) (sources : List SourceEntry)
    (f : OriginFile) : Nat → String → Int → Memo → String × Memo
  | 0, my, _, memo => ((if my = "" then name else my), memo)
  | n + 1, my, pr, memo =>
    let thisPrio := prio f.id
    if f.notSource = true then
      my_name_loop name prio sources f n my pr memo
    else if my ≠ "" ∧ pr ≥ thisPrio then
      my_name_loop name prio sources f n my pr memo
    else
      let d := find_distribution_name sources memo f
      if d.1 ≠ "" then
        my_name_loop name prio sources f n (name ++ "/" ++ d.1) thisPrio d.2
      else
        my_name_loop name prio sources f n my pr d.2

/-- my_name(p, c): chain is the version chain from the iterator c onward
(empty when c is an end iterator).  When the chain is nonempty the fixed
file f is the first origin file of its first version; if that version has
no origin file at all, vf.File() dereferences an end iterator (none). -/
def my_name (name : String) (prio : Nat → Int) (sources : List SourceEntry)
    (memo : Memo) (chain : List VerNode) : Option (String × Memo) :=
  match chain with
  | [] => some (name, memo)
  | c0 :: rest =>
    match c0.origins with
    | [] => none
    | f :: _ => some (my_name_loop name prio sources f (rest.length + 1) "" 0 memo)

/-- First origin file of highest priority, earlier files winning ties
(claim C3's selection rule). -/
def pick_best (prio : Nat → Int) : List OriginFile → Option OriginFile
  | [] => none
  | f :: rest =>
    match pick_best prio rest with
    | none => some f
    | some g => if prio g.id > prio f.id then some g else some f

/-- Restatement of claim C3's description of the Display-Name Builder:
walk v's origin files, drop the not-source ones, pick the
highest-priority remaining file (first encountered wins ties), attach
its distribution name when nonempty. -/
def my_name_spec (name : String) (prio : Nat → Int) (sources : List SourceEntry)
    (memo : Memo) (v : VerNode) : String :=
  match pick_best prio (v.origins.filter (fun f => f.notSource = false)) with
  | none => name
  | some f =>
    let d := (find_distribution_name sources memo f).1
    if d = "" then name else name ++ "/" ++ d

/- ------------------------------------------------------------------ -/
/- determine_upgradeability (Upgrade Classifier)                       -/
/- ------------------------------------------------------------------ -/

/-- Tail of determine_upgradeability after the NOT_INSTALLED and
NOT_AVAIL tests: candidate->ID != current->ID, then
current.FileList()->NextFile != 0, then newer->ID != current->ID, then
current->NextVer != 0, then __builtin_trap() (none also stands for the
trap).  v0 is the first version of the list (newer), i the position of
the installed version. -/
def classify_after (versions : List VerNode) (i : Nat) (v0 cur : VerNode)
    (candidate : Option VerNode) : Option UpgradeState :=
  match candidate with
  | none => none
  | some cand =>
    if cand.id ≠ cur.id then some UpgradeState.automatic
    else
      match cur.origins with
      | [] => none
      | _ :: _ :: _ => some UpgradeState.upToDate
      | [_] =>
        if v0.id ≠ cur.id then some UpgradeState.manual
        else if i + 1 < versions.length then some UpgradeState.downgrade
        else none

/-- determine_upgradeability.  versions is p.VersionList(), currentIdx the
position of p.CurrentVer() in it (none when not installed), candidate the
version policy->GetCandidateVer(p) points at (none for an end iterator).
current->NextVer != 0 becomes i + 1 < versions.length. -/
def determine_upgradeability (versions : List VerNode) (currentIdx : Option Nat)
    (candidate : Option VerNode) : Option UpgradeState :=
  match currentIdx with
  | none => some UpgradeState.notInstalled
  | some i =>
    match versions with
    | [] => none
    | v0 :: rest =>
      match (v0 :: rest)[i]? with
      | none => none
      | some cur =>
        if rest = [] then
          match cur.origins with
          | [] => none
          | [_] => some UpgradeState.notAvail
          | _ :: _ :: _ => classify_after (v0 :: rest) i v0 cur candidate
        else classify_after (v0 :: rest) i v0 cur candidate

/-- Claim C1, rule 3: the candidate is present and is not the same
version as the installed one. -/
def cand_differs (candidate : Option VerNode) (cur : VerNode) : Bool :=
  match candidate with
  | some c => c.id != cur.id
  | none => false

/-- Claim C1, rule 5: A[0] exists and is not the same version as the
installed one. -/
def head_differs (versions : List VerNode) (cur : VerNode) : Bool :=
  match versions.head? with
  | some v0 => v0.id != cur.id
  | none => false

/-- Restatement of claim C1's rule list, first match wins; none is
rule 7 (abort). -/
def classify_spec (versions : List VerNode) (currentIdx : Option Nat)
    (candidate : Option VerNode) : Option UpgradeState :=
  match currentIdx with
  | none => some UpgradeState.notInstalled
  | some i =>
    match versions[i]? with
    | none => none
    | some cur =>
      if versions.tail = [] ∧ cur.origins.tail = [] then some UpgradeState.notAvail
      else if cand_differs candidate cur = true then some UpgradeState.automatic
      else if 1 < cur.origins.length then some UpgradeState.upToDate
      else if head_differs versions cur = true then some UpgradeState.manual
      else if i + 1 < versions.length then some UpgradeState.downgrade
      else none

/-- The candidate version node of a package (none when GetCandidateVer
returns an end iterator). -/
def getCandidate (p : Pkg) : Option VerNode :=
  match p.candidateIdx with
  | none => none
  | some j => p.versions[j]?

/-- The version chain from the candidate iterator onward, as handed to
my_name(p, candidate). -/
def candChain (p : Pkg) : List VerNode :=
  match p.candidateIdx with
  | none => []
  | some j => p.versions.drop j

/- ------------------------------------------------------------------ -/
/- Reporter                                                            -/
/- ------------------------------------------------------------------ -/

/-- print_only(std::cout << name) << rest: with Brief set the stream gets
name and a newline and rest goes to /dev/null, otherwise the full line is
printed. -/
def print_only (brief : Bool) (name rest : String) : String :=
  if brief = true then name ++ "\n" else name ++ rest

/-- The selections array of describe_state. -/
def selections : List String :=
  ["unknown", "install", "hold", "deinstall", "purge"]

/-- The installs array of describe_state. -/
def installs : List String :=
  ["ok", "reinstreq", "hold", "hold-reinstreq"]

/-- The currents array of describe_state. -/
def currents : List String :=
  ["not-installed", "unpacked", "half-configured", "INVALID",
   "half-installed", "config-files", "installed", "triggers-awaited",
   "triggers-pending"]

/-- describe_state: the dpkg status triple, each field preceded by a
space; an out-of-range enum fails the assert (none). -/
def describe_state (p : Pkg) : Option String :=
  match selections[p.selectedState]?, installs[p.instState]?,
      currents[p.currentState]? with
  | some a, some b, some c => some (" " ++ a ++ " " ++ b ++ " " ++ c)
  | _, _, _ => none

/-- The official_suites array (its first element is the pseudo-suite ""). -/
def official_suites : List String :=
  ["", "oldstable", "stable", "proposed-updates", "stable-updates",
   "testing", "testing-proposed-updates", "testing-updates", "unstable",
   "experimental"]

/-- suite_is_in_cache: some cache file has this (present) archive label. -/
def suite_is_in_cache (cacheFiles : List OriginFile) (name : String) : Bool :=
  cacheFiles.any (fun f => f.archive ≠ "" && f.archive == name)

/-- suite_is_official: the file's (present) archive label is one of the
non-empty official suites. -/
def suite_is_official (f : OriginFile) : Bool :=
  official_suites.any (fun s => s ≠ "" && f.archive ≠ "" && s == f.archive)

/-- A buffered line of TablePrinter<4>: either a raw string or a
four-column row. -/
inductive TLine where
  | raw : String → TLine
  | row : String → String → String → String → TLine
deriving DecidableEq

/-- The per-column maxima of the buffered rows. -/
def tmax : List TLine → Nat × Nat × Nat × Nat
  | [] => (0, 0, 0, 0)
  | TLine.raw _ :: rest => tmax rest
  | TLine.row a b c d :: rest =>
    let m := tmax rest
    (max a.toList.length m.1, max b.toList.length m.2.1,
     max c.toList.length m.2.2.1, max d.toList.length m.2.2.2)

/-- std::setw with left justification: pad on the right with spaces up to
the field width (never truncating). -/
def padTo (s : String) (w : Nat) : String :=
  s ++ String.mk (List.replicate (w - s.toList.length) ' ')

/-- TablePrinter<4>::output, given the column maxima: columns 0..2 are a
field wider than their maximum, the last column is exactly its maximum. -/
def trender_lines (m : Nat × Nat × Nat × Nat) : List TLine → String
  | [] => ""
  | TLine.raw s :: rest => s ++ "\n" ++ trender_lines m rest
  | TLine.row a b c d :: rest =>
    padTo a (m.1 + 1) ++ padTo b (m.2.1 + 1) ++ padTo c (m.2.2.1 + 1) ++
      padTo d m.2.2.2 ++ "\n" ++ trender_lines m rest

/-- TablePrinter<4>::output. -/
def trender (ls : List TLine) : String :=
  trender_lines (tmax ls) ls

/-- Inner loop of show_all_versions over one version's origin files:
skip not-source files; in the first pseudo-group skip files from an
official suite, in a named group skip files whose archive differs from
the group; the kept files become table rows. -/
def sav_file_rows (sources : List SourceEntry) (fullname verStr : String)
    (first : Bool) (release : String) :
    List OriginFile → Memo → List TLine × Memo
  | [], memo => ([], memo)
  | f :: rest, memo =>
    if f.notSource = true then
      sav_file_rows sources fullname verStr first release rest memo
    else if (if first = true then suite_is_official f = true else f.archive ≠ release) then
      sav_file_rows sources fullname verStr first release rest memo
    else
      let d := find_distribution_name sources memo f
      let p2 := sav_file_rows sources fullname verStr first release rest d.2
      (TLine.row fullname verStr d.1 f.site :: p2.1, p2.2)

/-- Middle loop of show_all_versions over the package's versions. -/
def sav_vers (sources : List SourceEntry) (fullname : String) (first : Bool)
    (release : String) : List VerNode → Memo → List TLine × Memo
  | [], memo => ([], memo)
  | v :: vs, memo =>
    let p1 := sav_file_rows sources fullname v.verStr first release v.origins memo
    let p2 := sav_vers sources fullname first release vs p1.2
    (p1.1 ++ p2.1, p2.2)

/-- One group of show_all_versions: a named suite absent from the cache is
skipped silently; a named suite that yields no row emits a
"No <suite> version" line. -/
def sav_release (sources : List SourceEntry) (cacheFiles : List OriginFile)
    (fullname : String) (vers : List VerNode) (first : Bool) (release : String)
    (memo : Memo) : List TLine × Memo :=
  if first = false ∧ suite_is_in_cache cacheFiles release = false then ([], memo)
  else
    let p := sav_vers sources fullname first release vers memo
    if p.1 = [] ∧ first = false then
      ([TLine.raw ("No " ++ release ++ " version")], p.2)
    else p

/-- Outer loop of show_all_versions over the official_suites array; the
flag marks the first (pseudo) group. -/
def sav_groups (sources : List SourceEntry) (cacheFiles : List OriginFile)
    (fullname : String) (vers : List VerNode) :
    List String → Bool → Memo → List TLine × Memo
  | [], _, memo => ([], memo)
  | rel :: rest, first, memo =>
    let p1 := sav_release sources cacheFiles fullname vers first rel memo
    let p2 := sav_groups sources cacheFiles fullname vers rest false p1.2
    (p1.1 ++ p2.1, p2.2)

/-- show_all_versions: the heading line (installed version and status
triple, or "Not installed"), then the grouped four-column table. -/
def show_all_versions (sources : List SourceEntry) (cacheFiles : List OriginFile)
    (memo : Memo) (p : Pkg) : Option (String × Memo) :=
  match (match p.currentIdx with
         | some i =>
           (p.versions[i]?).bind (fun cur =>
             (describe_state p).map (fun st =>
               p.fullname ++ " " ++ cur.verStr ++ st ++ "\n"))
         | none => some "Not installed\n") with
  | none => none
  | some hd =>
    let t := sav_groups sources cacheFiles p.fullname p.versions official_suites true memo
    some (hd ++ trender t.1, t.2)

/-- show_upgrade_info: the two early filters, the classification, the
upgrades-only filter, the optional all-versions block, then the per-state
verdict line.  su is the show_uninstalled argument.  The returned string
is everything the call writes to stdout; none is an aborted run
(classifier trap or an end-iterator dereference). -/
def show_upgrade_info (opts : Opts) (prio : Nat → Int) (sources : List SourceEntry)
    (cacheFiles : List OriginFile) (memo : Memo) (p : Pkg) (su : Bool) :
    Option (String × Memo) :=
  if p.currentIdx = none ∧ su = false then some ("", memo)
  else if p.selectedState = 2 ∧ opts.noHold = true then some ("", memo)
  else
    match determine_upgradeability p.versions p.currentIdx (getCandidate p) with
    | none => none
    | some state =>
      if stateRank state < 4 ∧ opts.upgradesOnly = true then some ("", memo)
      else
        match (if opts.allVersions = true then show_all_versions sources cacheFiles memo p
               else some ("", memo)) with
        | none => none
        | some pre =>
          match state with
          | UpgradeState.notInstalled =>
            some (pre.1 ++ (if su = true ∨ opts.allVersions = true then
                              p.fullname ++ " not installed\n"
                            else ""), pre.2)
          | UpgradeState.automatic =>
            match p.currentIdx with
            | none => none
            | some i =>
              match p.versions[i]? with
              | none => none
              | some cur =>
                match getCandidate p with
                | none => none
                | some cand =>
                  match my_name p.fullname prio sources pre.2 (candChain p) with
                  | none => none
                  | some nm =>
                    some (pre.1 ++ print_only opts.brief nm.1
                            (" upgradeable from " ++ cur.verStr ++ " to " ++
                              cand.verStr ++ "\n"), nm.2)
          | UpgradeState.manual =>
            match p.currentIdx with
            | none => none
            | some i =>
              match p.versions[i]? with
              | none => none
              | some cur =>
                match p.versions.head? with
                | none => none
                | some v0 =>
                  match my_name p.fullname prio sources pre.2 p.versions with
                  | none => none
                  | some nm =>
                    some (pre.1 ++ print_only opts.brief nm.1
                            (" *manually* upgradeable from " ++ cur.verStr ++
                              " to " ++ v0.verStr ++ "\n"), nm.2)
          | UpgradeState.notAvail =>
            if opts.upgradesOnly = true then some (pre.1, pre.2)
            else
              match p.currentIdx with
              | none => none
              | some i =>
                match p.versions[i]? with
                | none => none
                | some cur =>
                  some (pre.1 ++ p.fullname ++ " " ++ cur.verStr ++
                          " installed: No available version in archive\n", pre.2)
          | UpgradeState.upToDate =>
            if opts.upgradesOnly = true then some (pre.1, pre.2)
            else
              match p.currentIdx with
              | none => none
              | some i =>
                match p.versions[i]? with
                | none => none
                | some cur =>
                  match my_name p.fullname prio sources pre.2 (candChain p) with
                  | none => none
                  | some nm =>
                    some (pre.1 ++ print_only opts.brief nm.1
                            (" uptodate " ++ cur.verStr ++ "\n"), nm.2)
          | UpgradeState.downgrade =>
            if opts.upgradesOnly = true then some (pre.1, pre.2)
            else
              match p.currentIdx with
              | none => none
              | some i =>
                match p.versions[i]? with
                | none => none
                | some cur =>
                  match my_name p.fullname prio sources pre.2 (candChain p) with
                  | none => none
                  | some nm =>
                    some (pre.1 ++ print_only opts.brief nm.1
                            (" " ++ cur.verStr ++ " newer than version in archive\n"),
                          nm.2)

/- ------------------------------------------------------------------ -/
/- Driver                                                              -/
/- ------------------------------------------------------------------ -/

/-- Run show_upgrade_info over a package list, threading the memo table;
none when any call aborts. -/
def run_pkgs (opts : Opts) (prio : Nat → Int) (sources : List SourceEntry)
    (cacheFiles : List OriginFile) : List Pkg → Bool → Memo → Option Memo
  | [], _, memo => some memo
  | p :: ps, su, memo =>
    match show_upgrade_info opts prio sources cacheFiles memo p su with
    | none => none
    | some r => run_pkgs opts prio sources cacheFiles ps su r.2

/-- The pattern loop of main: each pattern's packages are shown with
show_uninstalled set when --regex-all is given or the resolver reported a
plain-name (unknown) constructor; then, when the resolver reported a
plain name, this is the only pattern, --upgradeable is set and the
pattern has no '*', the process exits 2 if the set is empty or its first
package is not upgradable. -/
def main_loop (opts : Opts) (prio : Nat → Int) (sources : List SourceEntry)
    (cacheFiles : List OriginFile) (single : Bool) :
    List PatternResult → Memo → Option Nat
  | [], _ => some 0
  | r :: rest, memo =>
    match run_pkgs opts prio sources cacheFiles r.pkgs
        (opts.regexAll || (r.ctor == Constructor.unknown)) memo with
    | none => none
    | some memo1 =>
      if r.ctor = Constructor.unknown ∧ single = true ∧ opts.upgradesOnly = true ∧
          r.pattern.toList.contains '*' = false then
        match r.pkgs with
        | [] => some 2
        | p :: _ =>
          match determine_upgradeability p.versions p.currentIdx (getCandidate p) with
          | none => none
          | some st =>
            if stateRank st < 4 then some 2
            else main_loop opts prio sources cacheFiles single rest memo1
      else main_loop opts prio sources cacheFiles single rest memo1

/-- The exit code of main.  parseOk is cmd.Parse's success; help the -h
flag; packageRes the resolution of a -p argument (none when -p was not
given); initCache the -i flag; cacheOk whether the cache loaded without a
pending error; allPkgs the full sorted package enumeration used when no
pattern is given; patterns0 the positional patterns with their resolver
results.  Falling off the end of main is exit 0. -/
def main_exit (parseOk help : Bool) (opts : Opts) (packageRes : Option PatternResult)
    (initCache cacheOk : Bool) (prio : Nat → Int) (sources : List SourceEntry)
    (cacheFiles : List OriginFile) (allPkgs : List Pkg)
    (patterns0 : List PatternResult) : Option Nat :=
  if parseOk = false then some 1
  else if help = true then some 0
  else
    let e1 : Bool := !patterns0.isEmpty && opts.noHold
    let e2 : Bool := patterns0.isEmpty && opts.regexAll
    let e3 : Bool := packageRes.isSome && !patterns0.isEmpty
    let pending : Bool := !cacheOk || e1 || e2 || e3
    if initCache = true && !pending then some 0
    else if pending = true then some 1
    else
      let patterns := match packageRes with
                      | some r => [r]
                      | none => patterns0
      if patterns.isEmpty = true then
        match run_pkgs opts prio sources cacheFiles allPkgs false [] with
        | none => none
        | some _ => some 0
      else main_loop opts prio sources cacheFiles (patterns.length == 1) patterns []

/- ------------------------------------------------------------------ -/
/- Concrete fixtures                                                   -/
/- ------------------------------------------------------------------ -/

/-- The local status database pseudo origin file (archive "now",
NotSource set). -/
def fStatus : OriginFile := ⟨0, "now", "now", "", true⟩

/-- A stable-archive origin file. -/
def fStable : OriginFile := ⟨10, "stable", "bookworm", "deb.example.org", false⟩

/-- An experimental-archive origin file. -/
def fExp : OriginFile := ⟨7, "experimental", "rc-buggy", "deb.example.org", false⟩

/-- The sources.list entry producing fStable. -/
def srcStable : SourceEntry := ⟨"stable", [some 10]⟩

/-- The sources.list entry producing fExp. -/
def srcExp : SourceEntry := ⟨"experimental", [some 7]⟩

/-- A flat pin-priority policy. -/
def prio500 : Nat → Int := fun _ => 500

/-- All options off. -/
def defOpts : Opts := ⟨false, false, false, false, false⟩

/-- Only --upgradeable. -/
def upOpts : Opts := ⟨true, false, false, false, false⟩

/-- Only --brief. -/
def briefOpts : Opts := ⟨false, true, false, false, false⟩

/-- Only --allversions. -/
def avOpts : Opts := ⟨false, false, true, false, false⟩

/-- Scenario S2: bar:amd64 installed at 1.0 (status database only),
candidate 1.1 from stable. -/
def vBar11 : VerNode := ⟨1, "1.1", [fStable]⟩

/-- The installed 1.0 version of bar:amd64. -/
def vBar10 : VerNode := ⟨0, "1.0", [fStatus]⟩

/-- The bar:amd64 package of scenario S2 (selection install, inst ok,
current installed). -/
def barPkg : Pkg := ⟨"bar:amd64", [vBar11, vBar10], some 1, some 0, 1, 0, 6⟩

/-- A not-available package: installed at 1.0, only the status database
carries it; the candidate is the installed version itself. -/
def vFoo : VerNode := ⟨0, "1.0", [fStatus]⟩

/-- The not-available package foo:amd64. -/
def fooPkg : Pkg := ⟨"foo:amd64", [vFoo], some 0, some 0, 1, 0, 6⟩

/-- A version whose first origin file is the not-source status database
and whose second origin file sits in experimental (claim C3's failing
input). -/
def vQux : VerNode := ⟨5, "2.0", [fStatus, fExp]⟩

/-- An uninstalled package. -/
def vNaz : VerNode := ⟨0, "1.0", [fStable]⟩

/-- The uninstalled package naz:amd64. -/
def nazPkg : Pkg := ⟨"naz:amd64", [vNaz], none, some 0, 0, 0, 0⟩

/-- A version with two origin files (used for the candidate-absent
dereference of claim C9). -/
def vTwo : VerNode := ⟨0, "1.0", [fStatus, fStable]⟩

/- ------------------------------------------------------------------ -/
/- Helper lemmas                                                       -/
/- ------------------------------------------------------------------ -/

/-- The inner index-file scan of find_distribution_name accepts exactly
when the entry contains the file and the truncated distribution string
matches one of the file's non-empty labels. -/
theorem scan_files_eq (f : OriginFile) (dist : String) (files : List (Option Nat)) :
    scan_files f dist files =
      if (some f.id) ∈ files ∧
          ((f.archive ≠ "" ∧ truncate_dist dist = f.archive) ∨
           (f.codename ≠ "" ∧ truncate_dist dist = f.codename)) then
        some (truncate_dist dist)
      else none := by
  induction files with
  | nil => simp [scan_files]
  | cons of rest ih =>
    by_cases hof : of = some f.id
    · by_cases hc : (f.archive ≠ "" ∧ truncate_dist dist = f.archive) ∨
          (f.codename ≠ "" ∧ truncate_dist dist = f.codename)
      · simp [scan_files, hof, hc]
      · simp [scan_files, hof, hc, ih]
    · have hmem : ((some f.id) ∈ of :: rest) ↔ ((some f.id) ∈ rest) := by
        rw [List.mem_cons]
        exact or_iff_right (fun h => hof h.symm)
      simp [scan_files, hof, ih, hmem]

/-- The source-entry scan of find_distribution_name equals the
declarative first-match search of fdn_spec. -/
theorem scan_sources_eq (f : OriginFile) (sources : List SourceEntry) :
    scan_sources f sources =
      sources.findSome? (fun e =>
        let distro := truncate_dist e.dist
        if (some f.id) ∈ e.indexFiles ∧
            ((f.archive ≠ "" ∧ distro = f.archive) ∨ (f.codename ≠ "" ∧ distro = f.codename)) then
          some distro
        else none) := by
  induction sources with
  | nil => simp [scan_sources]
  | cons e rest ih =>
    rw [List.findSome?_cons]
    by_cases hc : (some f.id) ∈ e.indexFiles ∧
        ((f.archive ≠ "" ∧ truncate_dist e.dist = f.archive) ∨
         (f.codename ≠ "" ∧ truncate_dist e.dist = f.codename))
    · simp [scan_sources, scan_files_eq, hc]
    · simp [scan_sources, scan_files_eq, hc, ih]

/-- The post-NOT_AVAIL tail of the classifier, with a present candidate
and a nonempty origin list, matches the corresponding if-chain of the
claim's rule list. -/
theorem classify_after_eq (versions : List VerNode) (i : Nat) (v0 cur cand : VerNode)
    (hor : cur.origins ≠ []) (hhead : versions.head? = some v0) :
    classify_after versions i v0 cur (some cand) =
      (if cand_differs (some cand) cur = true then some UpgradeState.automatic
       else if 1 < cur.origins.length then some UpgradeState.upToDate
       else if head_differs versions cur = true then some UpgradeState.manual
       else if i + 1 < versions.length then some UpgradeState.downgrade
       else none) := by
  rcases hco : cur.origins with _ | ⟨a, _ | ⟨b, t⟩⟩
  · exact absurd hco hor
  · by_cases hcd : cand.id = cur.id
    · by_cases hv : v0.id = cur.id
      · simp [classify_after, cand_differs, head_differs, hhead, hcd, hv, hco]
      · simp [classify_after, cand_differs, head_differs, hhead, hcd, hv, hco]
    · simp [classify_after, cand_differs, hcd, hco]
  · by_cases hcd : cand.id = cur.id
    · simp [classify_after, cand_differs, hcd, hco]
    · simp [classify_after, cand_differs, hcd, hco]

/- ------------------------------------------------------------------ -/
/- Claim theorems                                                      -/
/- ------------------------------------------------------------------ -/

/-- C2: the Suite Attributor (find_distribution_name) returns the
memoized name on a hit and otherwise performs exactly the first-match
source-entry scan with archive/codename agreement, with the
archive/codename/empty fallback, memoizing the result keyed by the
file's identity — i.e. it coincides with the declarative fdn_spec on
every input. -/
theorem claim_C2_suite_attributor (sources : List SourceEntry) (memo : Memo)
    (f : OriginFile) :
    find_distribution_name sources memo f = fdn_spec sources memo f := by
  unfold find_distribution_name fdn_spec
  rw [scan_sources_eq]

/-- C1: on inputs satisfying the cache invariants (the installed-version
pointer is a position in the version list, every version has at least
one origin file) and the candidate-present precondition flagged by C9,
the classifier returns exactly the state of the first matching rule of
the claim's rule list (classify_spec); the not-installed rule needs no
precondition at all. -/
theorem claim_C1_classifier_rules :
    (∀ (versions : List VerNode) (candidate : Option VerNode),
       determine_upgradeability versions none candidate =
         classify_spec versions none candidate)
    ∧
    (∀ (versions : List VerNode) (i : Nat) (cur cand : VerNode),
       versions[i]? = some cur → cur.origins ≠ [] →
       determine_upgradeability versions (some i) (some cand) =
         classify_spec versions (some i) (some cand)) := by
  constructor
  · intro versions candidate
    rfl
  · intro versions i cur cand hget hor
    rcases versions with _ | ⟨v0, rest⟩
    · simp at hget
    · rcases rest with _ | ⟨r, rs⟩
      · have hi : i = 0 := by
          rcases i with _ | n
          · rfl
          · simp at hget
        subst hi
        have hv : v0 = cur := by simpa using hget
        subst hv
        rcases hco : v0.origins with _ | ⟨a, _ | ⟨b, t⟩⟩
        · exact absurd hco hor
        · simp [determine_upgradeability, classify_spec, hco]
        · rw [determine_upgradeability]
          simp only [List.getElem?_cons_zero, if_pos rfl, hco]
          rw [classify_after_eq [v0] 0 v0 v0 cand (by rw [hco]; simp) rfl]
          simp [classify_spec, hco]
      · rw [determine_upgradeability]
        simp only [hget, if_neg (by simp : ¬(r :: rs = []))]
        rw [classify_after_eq (v0 :: r :: rs) i v0 cur cand hor rfl]
        simp [classify_spec, hget]

/-- Witness for C1 at a concrete input: the not-available package foo. -/
theorem claim_C1_classifier_rules_witness :
    determine_upgradeability [vFoo] (some 0) (some vFoo) =
      classify_spec [vFoo] (some 0) (some vFoo) :=
  claim_C1_classifier_rules.2 [vFoo] 0 vFoo vFoo rfl (by decide)

/-- C9: under the cache invariants (valid installed position, nonempty
origin list, distinct version identities) the classifier is total
whenever the candidate lookup returned a version, and it dereferences
the absent candidate's identity field otherwise: on a package whose
installed version is present, whose not-available test fails and whose
candidate is absent, the classifier reads unspecified memory (modelled
none). -/
theorem claim_C9_candidate_precondition :
    (∀ (versions : List VerNode) (i : Nat) (cur cand : VerNode),
       versions[i]? = some cur → cur.origins ≠ [] →
       (versions.map (fun v => v.id)).Nodup →
       (determine_upgradeability versions (some i) (some cand)).isSome = true)
    ∧ determine_upgradeability [vTwo] (some 0) none = none := by
  constructor
  · intro versions i cur cand hget hor hnd
    rcases versions with _ | ⟨v0, rest⟩
    · simp at hget
    · rcases rest with _ | ⟨r, rs⟩
      · have hi : i = 0 := by
          rcases i with _ | n
          · rfl
          · simp at hget
        subst hi
        have hv : v0 = cur := by simpa using hget
        subst hv
        rcases hco : v0.origins with _ | ⟨a, _ | ⟨b, t⟩⟩
        · exact absurd hco hor
        · simp [determine_upgradeability, classify_after, hco]
        · by_cases hcd : cand.id = v0.id
          · simp [determine_upgradeability, classify_after, hco, hcd]
          · simp [determine_upgradeability, classify_after, hco, hcd]
      · rw [determine_upgradeability]
        simp only [hget, if_neg (by simp : ¬(r :: rs = []))]
        rw [classify_after]
        by_cases hcd : cand.id = cur.id
        · rcases hco : cur.origins with _ | ⟨a, _ | ⟨b, t⟩⟩
          · exact absurd hco hor
          · by_cases hv : v0.id = cur.id
            · have hlt : i < (v0 :: r :: rs).length := by
                by_contra hnl
                push_neg at hnl
                rw [List.getElem?_eq_none hnl] at hget
                exact Option.noConfusion hget
              have hi0 : i = 0 := by
                apply @List.getElem?_inj Nat i 0 ((v0 :: r :: rs).map (fun v => v.id))
                · simpa using hlt
                · exact hnd
                · rw [List.getElem?_map, List.getElem?_map, hget]
                  simp [hv]
              subst hi0
              simp [hcd, hco, hv]
            · simp [hcd, hco, hv]
          · simp [hcd, hco]
        · simp [hcd]
  · decide

/-- Witness for C9's totality half at a concrete input. -/
theorem claim_C9_candidate_precondition_witness :
    (determine_upgradeability [vFoo] (some 0) (some vFoo)).isSome = true :=
  claim_C9_candidate_precondition.1 [vFoo] 0 vFoo vFoo rfl (by decide) (by decide)

/-- Prepending the empty string is the identity. -/
theorem str_empty_append (s : String) : "" ++ s = s := rfl

/-- Evaluation of show_upgrade_info on an AUTOMATIC package (no hold
suppression, no all-versions block). -/
theorem shui_automatic (opts : Opts) (prio : Nat → Int) (sources : List SourceEntry)
    (cacheFiles : List OriginFile) (memo : Memo) (p : Pkg) (su : Bool)
    (i : Nat) (cur cand : VerNode) (nm : String) (m2 : Memo)
    (hi : p.currentIdx = some i) (hcur : p.versions[i]? = some cur)
    (hcand : getCandidate p = some cand)
    (hclass : determine_upgradeability p.versions p.currentIdx (getCandidate p) =
      some UpgradeState.automatic)
    (hnh : opts.noHold = false) (hav : opts.allVersions = false)
    (hmy : my_name p.fullname prio sources memo (candChain p) = some (nm, m2)) :
    show_upgrade_info opts prio sources cacheFiles memo p su =
      some (print_only opts.brief nm
        (" upgradeable from " ++ cur.verStr ++ " to " ++ cand.verStr ++ "\n"), m2) := by
  rw [hi, hcand] at hclass
  simp [show_upgrade_info, hi, hnh, hav, hclass, hcur, hcand, hmy, stateRank,
    str_empty_append]

/-- Evaluation of show_upgrade_info on a MANUAL package. -/
theorem shui_manual (opts : Opts) (prio : Nat → Int) (sources : List SourceEntry)
    (cacheFiles : List OriginFile) (memo : Memo) (p : Pkg) (su : Bool)
    (i : Nat) (cur v0 : VerNode) (nm : String) (m2 : Memo)
    (hi : p.currentIdx = some i) (hcur : p.versions[i]? = some cur)
    (hhead : p.versions.head? = some v0)
    (hclass : determine_upgradeability p.versions p.currentIdx (getCandidate p) =
      some UpgradeState.manual)
    (hnh : opts.noHold = false) (hav : opts.allVersions = false)
    (hmy : my_name p.fullname prio sources memo p.versions = some (nm, m2)) :
    show_upgrade_info opts prio sources cacheFiles memo p su =
      some (print_only opts.brief nm
        (" *manually* upgradeable from " ++ cur.verStr ++ " to " ++ v0.verStr ++ "\n"),
        m2) := by
  rw [hi] at hclass
  simp [show_upgrade_info, hi, hnh, hav, hclass, hcur, hhead, hmy, stateRank,
    str_empty_append]

/-- Evaluation of show_upgrade_info on a NOT_AVAIL package without
--upgradeable: the full spaced line is printed whatever the brief
option says. -/
theorem shui_notavail (opts : Opts) (prio : Nat → Int) (sources : List SourceEntry)
    (cacheFiles : List OriginFile) (memo : Memo) (p : Pkg) (su : Bool)
    (i : Nat) (cur : VerNode)
    (hi : p.currentIdx = some i) (hcur : p.versions[i]? = some cur)
    (hclass : determine_upgradeability p.versions p.currentIdx (getCandidate p) =
      some UpgradeState.notAvail)
    (hnh : opts.noHold = false) (hup : opts.upgradesOnly = false)
    (hav : opts.allVersions = false) :
    show_upgrade_info opts prio sources cacheFiles memo p su =
      some (p.fullname ++ " " ++ cur.verStr ++
        " installed: No available version in archive\n", memo) := by
  rw [hi] at hclass
  simp [show_upgrade_info, hi, hnh, hup, hav, hclass, hcur, stateRank,
    str_empty_append]

/-- Evaluation of show_upgrade_info on an UPTODATE package without
--upgradeable. -/
theorem shui_uptodate (opts : Opts) (prio : Nat → Int) (sources : List SourceEntry)
    (cacheFiles : List OriginFile) (memo : Memo) (p : Pkg) (su : Bool)
    (i : Nat) (cur : VerNode) (nm : String) (m2 : Memo)
    (hi : p.currentIdx = some i) (hcur : p.versions[i]? = some cur)
    (hclass : determine_upgradeability p.versions p.currentIdx (getCandidate p) =
      some UpgradeState.upToDate)
    (hnh : opts.noHold = false) (hup : opts.upgradesOnly = false)
    (hav : opts.allVersions = false)
    (hmy : my_name p.fullname prio sources memo (candChain p) = some (nm, m2)) :
    show_upgrade_info opts prio sources cacheFiles memo p su =
      some (print_only opts.brief nm (" uptodate " ++ cur.verStr ++ "\n"), m2) := by
  rw [hi] at hclass
  simp [show_upgrade_info, hi, hnh, hup, hav, hclass, hcur, hmy, stateRank,
    str_empty_append]

/-- Evaluation of show_upgrade_info on a DOWNGRADE package without
--upgradeable. -/
theorem shui_downgrade (opts : Opts) (prio : Nat → Int) (sources : List SourceEntry)
    (cacheFiles : List OriginFile) (memo : Memo) (p : Pkg) (su : Bool)
    (i : Nat) (cur : VerNode) (nm : String) (m2 : Memo)
    (hi : p.currentIdx = some i) (hcur : p.versions[i]? = some cur)
    (hclass : determine_upgradeability p.versions p.currentIdx (getCandidate p) =
      some UpgradeState.downgrade)
    (hnh : opts.noHold = false) (hup : opts.upgradesOnly = false)
    (hav : opts.allVersions = false)
    (hmy : my_name p.fullname prio sources memo (candChain p) = some (nm, m2)) :
    show_upgrade_info opts prio sources cacheFiles memo p su =
      some (print_only opts.brief nm
        (" " ++ cur.verStr ++ " newer than version in archive\n"), m2) := by
  rw [hi] at hclass
  simp [show_upgrade_info, hi, hnh, hup, hav, hclass, hcur, hmy, stateRank,
    str_empty_append]

/-- Evaluation of show_upgrade_info on an uninstalled package (no
all-versions block, no --upgradeable): the verdict line appears exactly
when show_uninstalled is true. -/
theorem shui_notinstalled (opts : Opts) (prio : Nat → Int) (sources : List SourceEntry)
    (cacheFiles : List OriginFile) (memo : Memo) (p : Pkg) (su : Bool)
    (hi : p.currentIdx = none)
    (hnh : opts.noHold = false) (hup : opts.upgradesOnly = false)
    (hav : opts.allVersions = false) :
    show_upgrade_info opts prio sources cacheFiles memo p su =
      some ((if su = true then p.fullname ++ " not installed\n" else ""), memo) := by
  rcases su with _ | _
  · simp [show_upgrade_info, hi]
  · simp [show_upgrade_info, hi, hnh, hup, hav, determine_upgradeability, stateRank,
      str_empty_append]

/-- Any package with no installed version prints nothing when uninstalled
packages are not being shown; every option combination (in particular
--allversions) is filtered out by the first early return. -/
theorem shui_uninstalled_filtered (opts : Opts) (prio : Nat → Int)
    (sources : List SourceEntry) (cacheFiles : List OriginFile) (memo : Memo)
    (p : Pkg) (hi : p.currentIdx = none) :
    show_upgrade_info opts prio sources cacheFiles memo p false = some ("", memo) := by
  simp [show_upgrade_info, hi]

/-- C3 (code_bug): because the loop of my_name advances the version
iterator c instead of the file iterator vf, only the first origin file
of the chosen version is ever examined.  On a version whose first origin
file is the not-source status database and whose second origin file
lives in experimental, the code returns the bare fully-qualified name,
while the documented selection (my_name_spec, the claim's algorithm)
yields the experimental-qualified name. -/
theorem claim_C3_display_name_bug :
    my_name "qux:amd64" prio500 [srcExp] [] [vQux] = some ("qux:amd64", [])
    ∧ my_name_spec "qux:amd64" prio500 [srcExp] [] vQux = "qux:amd64/experimental"
    ∧ ("qux:amd64" : String) ≠ "qux:amd64/experimental" := by
  refine ⟨by decide, by decide, by decide⟩

/-- C4 (counterexample): on scenario S2 the reporter prints
"bar:amd64/stable upgradeable from 1.0 to 1.1", not the claimed
"bar:amd64/stable upgradable from 1.0 to 1.1": the verb is spelled
"upgradeable" in the source. -/
theorem claim_C4_counterexample :
    show_upgrade_info defOpts prio500 [srcStable] [] [] barPkg false =
      some ("bar:amd64/stable upgradeable from 1.0 to 1.1\n", [(10, "stable")])
    ∧ "bar:amd64/stable upgradeable from 1.0 to 1.1\n" ≠
        "bar:amd64/stable upgradable from 1.0 to 1.1\n" := by
  refine ⟨by decide, by decide⟩

/-- C4 (amended): an automatic-upgrade package prints
"<N(p,C)> upgradeable from <V_installed> to <V_candidate>", a
manual-upgrade package prints
"<N(p,A[0])> *manually* upgradeable from <V_installed> to <V_newer>",
and scenario S2 prints "bar:amd64/stable upgradeable from 1.0 to 1.1". -/
theorem claim_C4_amended :
    (∀ (opts : Opts) (prio : Nat → Int) (sources : List SourceEntry)
       (cacheFiles : List OriginFile) (memo : Memo) (p : Pkg) (su : Bool)
       (i : Nat) (cur cand : VerNode) (nm : String) (m2 : Memo),
       p.currentIdx = some i → p.versions[i]? = some cur →
       getCandidate p = some cand →
       determine_upgradeability p.versions p.currentIdx (getCandidate p) =
         some UpgradeState.automatic →
       opts.noHold = false → opts.allVersions = false → opts.brief = false →
       my_name p.fullname prio sources memo (candChain p) = some (nm, m2) →
       show_upgrade_info opts prio sources cacheFiles memo p su =
         some (nm ++ (" upgradeable from " ++ cur.verStr ++ " to " ++
           cand.verStr ++ "\n"), m2))
    ∧
    (∀ (opts : Opts) (prio : Nat → Int) (sources : List SourceEntry)
       (cacheFiles : List OriginFile) (memo : Memo) (p : Pkg) (su : Bool)
       (i : Nat) (cur v0 : VerNode) (nm : String) (m2 : Memo),
       p.currentIdx = some i → p.versions[i]? = some cur →
       p.versions.head? = some v0 →
       determine_upgradeability p.versions p.currentIdx (getCandidate p) =
         some UpgradeState.manual →
       opts.noHold = false → opts.allVersions = false → opts.brief = false →
       my_name p.fullname prio sources memo p.versions = some (nm, m2) →
       show_upgrade_info opts prio sources cacheFiles memo p su =
         some (nm ++ (" *manually* upgradeable from " ++ cur.verStr ++ " to " ++
           v0.verStr ++ "\n"), m2))
    ∧
    show_upgrade_info defOpts prio500 [srcStable] [] [] barPkg false =
      some ("bar:amd64/stable upgradeable from 1.0 to 1.1\n", [(10, "stable")]) := by
  refine ⟨?_, ?_, by decide⟩
  · intro opts prio sources cacheFiles memo p su i cur cand nm m2 hi hcur hcand hclass
      hnh hav hb hmy
    rw [shui_automatic opts prio sources cacheFiles memo p su i cur cand nm m2 hi hcur
      hcand hclass hnh hav hmy]
    simp [print_only, hb]
  · intro opts prio sources cacheFiles memo p su i cur v0 nm m2 hi hcur hhead hclass
      hnh hav hb hmy
    rw [shui_manual opts prio sources cacheFiles memo p su i cur v0 nm m2 hi hcur
      hhead hclass hnh hav hmy]
    simp [print_only, hb]

/-- Witness for C4 (amended) at scenario S2. -/
theorem claim_C4_amended_witness :
    show_upgrade_info defOpts prio500 [srcStable] [] [] barPkg false =
      some ("bar:amd64/stable" ++ (" upgradeable from " ++ "1.0" ++ " to " ++ "1.1" ++
        "\n"), [(10, "stable")]) :=
  claim_C4_amended.1 defOpts prio500 [srcStable] [] [] barPkg false 1 vBar10 vBar11
    "bar:amd64/stable" [(10, "stable")] rfl rfl rfl (by decide) rfl rfl rfl (by decide)

/-- C5 (counterexample): with --brief a not-available package still
prints its full spaced verdict line, so not every printed line reduces
to the display name and lines with interior whitespace do occur. -/
theorem claim_C5_counterexample :
    show_upgrade_info briefOpts prio500 [srcStable] [] [] fooPkg false =
      some ("foo:amd64 1.0 installed: No available version in archive\n", [])
    ∧ ("foo:amd64 1.0 installed: No available version in archive\n".toList.contains
        ' ') = true
    ∧ "foo:amd64 1.0 installed: No available version in archive\n" ≠
        "foo:amd64" ++ "\n" := by
  refine ⟨by decide, by decide, by decide⟩

/-- C5 (amended): --brief truncates the verdict to the display name and
a newline exactly for the four states whose printer goes through
print_only (automatic, manual, up-to-date, downgrade); the
not-available line (and likewise the not-installed line) is printed
unchanged, interior whitespace included. -/
theorem claim_C5_amended :
    (∀ (opts : Opts) (prio : Nat → Int) (sources : List SourceEntry)
       (cacheFiles : List OriginFile) (memo : Memo) (p : Pkg) (su : Bool)
       (i : Nat) (cur cand : VerNode) (nm : String) (m2 : Memo),
       p.currentIdx = some i → p.versions[i]? = some cur →
       getCandidate p = some cand →
       determine_upgradeability p.versions p.currentIdx (getCandidate p) =
         some UpgradeState.automatic →
       opts.noHold = false → opts.allVersions = false → opts.brief = true →
       my_name p.fullname prio sources memo (candChain p) = some (nm, m2) →
       show_upgrade_info opts prio sources cacheFiles memo p su =
         some (nm ++ "\n", m2))
    ∧
    (∀ (opts : Opts) (prio : Nat → Int) (sources : List SourceEntry)
       (cacheFiles : List OriginFile) (memo : Memo) (p : Pkg) (su : Bool)
       (i : Nat) (cur v0 : VerNode) (nm : String) (m2 : Memo),
       p.currentIdx = some i → p.versions[i]? = some cur →
       p.versions.head? = some v0 →
       determine_upgradeability p.versions p.currentIdx (getCandidate p) =
         some UpgradeState.manual →
       opts.noHold = false → opts.allVersions = false → opts.brief = true →
       my_name p.fullname prio sources memo p.versions = some (nm, m2) →
       show_upgrade_info opts prio sources cacheFiles memo p su =
         some (nm ++ "\n", m2))
    ∧
    (∀ (opts : Opts) (prio : Nat → Int) (sources : List SourceEntry)
       (cacheFiles : List OriginFile) (memo : Memo) (p : Pkg) (su : Bool)
       (i : Nat) (cur : VerNode) (nm : String) (m2 : Memo),
       p.currentIdx = some i → p.versions[i]? = some cur →
       determine_upgradeability p.versions p.currentIdx (getCandidate p) =
         some UpgradeState.upToDate →
       opts.noHold = false → opts.upgradesOnly = false → opts.allVersions = false →
       opts.brief = true →
       my_name p.fullname prio sources memo (candChain p) = some (nm, m2) →
       show_upgrade_info opts prio sources cacheFiles memo p su =
         some (nm ++ "\n", m2))
    ∧
    (∀ (opts : Opts) (prio : Nat → Int) (sources : List SourceEntry)
       (cacheFiles : List OriginFile) (memo : Memo) (p : Pkg) (su : Bool)
       (i : Nat) (cur : VerNode) (nm : String) (m2 : Memo),
       p.currentIdx = some i → p.versions[i]? = some cur →
       determine_upgradeability p.versions p.currentIdx (getCandidate p) =
         some UpgradeState.downgrade →
       opts.noHold = false → opts.upgradesOnly = false → opts.allVersions = false →
       opts.brief = true →
       my_name p.fullname prio sources memo (candChain p) = some (nm, m2) →
       show_upgrade_info opts prio sources cacheFiles memo p su =
         some (nm ++ "\n", m2))
    ∧
    (∀ (opts : Opts) (prio : Nat → Int) (sources : List SourceEntry)
       (cacheFiles : List OriginFile) (memo : Memo) (p : Pkg) (su : Bool)
       (i : Nat) (cur : VerNode),
       p.currentIdx = some i → p.versions[i]? = some cur →
       determine_upgradeability p.versions p.currentIdx (getCandidate p) =
         some UpgradeState.notAvail →
       opts.noHold = false → opts.upgradesOnly = false → opts.allVersions = false →
       opts.brief = true →
       show_upgrade_info opts prio sources cacheFiles memo p su =
         some (p.fullname ++ " " ++ cur.verStr ++
           " installed: No available version in archive\n", memo)) := by
  refine ⟨?_, ?_, ?_, ?_, ?_⟩
  · intro opts prio sources cacheFiles memo p su i cur cand nm m2 hi hcur hcand hclass
      hnh hav hb hmy
    rw [shui_automatic opts prio sources cacheFiles memo p su i cur cand nm m2 hi hcur
      hcand hclass hnh hav hmy]
    simp [print_only, hb]
  · intro opts prio sources cacheFiles memo p su i cur v0 nm m2 hi hcur hhead hclass
      hnh hav hb hmy
    rw [shui_manual opts prio sources cacheFiles memo p su i cur v0 nm m2 hi hcur
      hhead hclass hnh hav hmy]
    simp [print_only, hb]
  · intro opts prio sources cacheFiles memo p su i cur nm m2 hi hcur hclass hnh hup
      hav hb hmy
    rw [shui_uptodate opts prio sources cacheFiles memo p su i cur nm m2 hi hcur
      hclass hnh hup hav hmy]
    simp [print_only, hb]
  · intro opts prio sources cacheFiles memo p su i cur nm m2 hi hcur hclass hnh hup
      hav hb hmy
    rw [shui_downgrade opts prio sources cacheFiles memo p su i cur nm m2 hi hcur
      hclass hnh hup hav hmy]
    simp [print_only, hb]
  · intro opts prio sources cacheFiles memo p su i cur hi hcur hclass hnh hup hav hb
    exact shui_notavail opts prio sources cacheFiles memo p su i cur hi hcur hclass
      hnh hup hav

/-- Witness for C5 (amended) at scenario S2 with --brief. -/
theorem claim_C5_amended_witness :
    show_upgrade_info briefOpts prio500 [srcStable] [] [] barPkg false =
      some ("bar:amd64/stable" ++ "\n", [(10, "stable")]) :=
  claim_C5_amended.1 briefOpts prio500 [srcStable] [] [] barPkg false 1 vBar10 vBar11
    "bar:amd64/stable" [(10, "stable")] rfl rfl rfl (by decide) rfl rfl rfl (by decide)

/-- C6 (counterexample): an uninstalled package with --allversions set
but show_uninstalled false prints nothing at all — the claimed
"<fullname> not installed" line does not appear, because the first
early return of show_upgrade_info filters the package before the
all-versions disjunct is ever consulted. -/
theorem claim_C6_counterexample :
    show_upgrade_info avOpts prio500 [srcStable] [] [] nazPkg false = some ("", [])
    ∧ "naz:amd64 not installed\n" ≠ "" := by
  refine ⟨by decide, by decide⟩

/-- C6 (amended): the "<fullname> not installed" line is printed exactly
when uninstalled packages are being shown (with default hold /
upgrades-only / all-versions options); with show_uninstalled false the
package prints nothing under every option combination, so the
all-versions option alone never enables the line. -/
theorem claim_C6_amended :
    (∀ (opts : Opts) (prio : Nat → Int) (sources : List SourceEntry)
       (cacheFiles : List OriginFile) (memo : Memo) (p : Pkg) (su : Bool),
       p.currentIdx = none → opts.noHold = false → opts.upgradesOnly = false →
       opts.allVersions = false →
       show_upgrade_info opts prio sources cacheFiles memo p su =
         some ((if su = true then p.fullname ++ " not installed\n" else ""), memo))
    ∧
    (∀ (opts : Opts) (prio : Nat → Int) (sources : List SourceEntry)
       (cacheFiles : List OriginFile) (memo : Memo) (p : Pkg),
       p.currentIdx = none →
       show_upgrade_info opts prio sources cacheFiles memo p false =
         some ("", memo)) := by
  refine ⟨?_, ?_⟩
  · intro opts prio sources cacheFiles memo p su hi hnh hup hav
    exact shui_notinstalled opts prio sources cacheFiles memo p su hi hnh hup hav
  · intro opts prio sources cacheFiles memo p hi
    exact shui_uninstalled_filtered opts prio sources cacheFiles memo p hi

/-- Witness for C6 (amended): naz:amd64 with show_uninstalled true. -/
theorem claim_C6_amended_witness :
    show_upgrade_info defOpts prio500 [srcStable] [] [] nazPkg true =
      some ("naz:amd64 not installed\n", []) :=
  claim_C6_amended.1 defOpts prio500 [srcStable] [] [] nazPkg true rfl rfl rfl rfl

/-- main with one positional pattern, successful parse, loaded cache and
no diagnostic error reduces to the pattern loop with single = true. -/
theorem main_exit_one_pattern (opts : Opts) (prio : Nat → Int)
    (sources : List SourceEntry) (cacheFiles : List OriginFile) (allPkgs : List Pkg)
    (r : PatternResult) (hnh : opts.noHold = false) :
    main_exit true false opts none false true prio sources cacheFiles allPkgs [r] =
      main_loop opts prio sources cacheFiles true [r] [] := by
  simp [main_exit, hnh]

/-- Evaluation of the pattern loop on a single pattern whose package set
was shown without aborting. -/
theorem main_loop_single (opts : Opts) (prio : Nat → Int) (sources : List SourceEntry)
    (cacheFiles : List OriginFile) (r : PatternResult) (m' : Memo)
    (hrun : run_pkgs opts prio sources cacheFiles r.pkgs
      (opts.regexAll || (r.ctor == Constructor.unknown)) [] = some m') :
    main_loop opts prio sources cacheFiles true [r] [] =
      (if r.ctor = Constructor.unknown ∧ opts.upgradesOnly = true ∧
          r.pattern.toList.contains '*' = false then
        (match r.pkgs with
         | [] => some 2
         | p :: _ =>
           match determine_upgradeability p.versions p.currentIdx (getCandidate p) with
           | none => none
           | some st => if stateRank st < 4 then some 2 else some 0)
       else some 0) := by
  rw [main_loop, hrun]
  rcases hpk : r.pkgs with _ | ⟨p, ps⟩
  · by_cases h1 : r.ctor = Constructor.unknown <;>
      by_cases h2 : opts.upgradesOnly = true <;>
      by_cases hmem : '*' ∈ r.pattern.data <;>
      simp [h1, h2, hmem, main_loop]
  · rcases hcl : determine_upgradeability p.versions p.currentIdx (getCandidate p)
        with _ | st
    · by_cases h1 : r.ctor = Constructor.unknown <;>
        by_cases h2 : opts.upgradesOnly = true <;>
        by_cases hmem : '*' ∈ r.pattern.data <;>
        simp [h1, h2, hmem, hcl, main_loop]
    · by_cases h1 : r.ctor = Constructor.unknown <;>
        by_cases h2 : opts.upgradesOnly = true <;>
        by_cases hmem : '*' ∈ r.pattern.data <;>
        by_cases hst : stateRank st < 4 <;>
        simp [h1, h2, hmem, hcl, hst, main_loop]

/-- C7 (counterexample): one pattern with no wildcard character
("^foo$"), --upgradeable set, and a single resolved package that is
neither automatic- nor manual-upgradable, yet the exit code is 0 and
not 2 — because the resolver classified the pattern as a regular
expression, a condition the claim omits. -/
theorem claim_C7_counterexample :
    main_exit true false upOpts none false true prio500 [srcStable] [] []
      [⟨"^foo$", Constructor.regex, [fooPkg]⟩] = some 0
    ∧ ("^foo$".toList.contains '*') = false
    ∧ determine_upgradeability fooPkg.versions fooPkg.currentIdx (getCandidate fooPkg) =
        some UpgradeState.notAvail
    ∧ (0 : Nat) ≠ 2 := by
  refine ⟨by decide, by decide, by decide, by decide⟩

/-- C7 (amended): the exit code is 2 exactly when exactly one pattern
was supplied, the resolver classified it as a plain package name
(unknown constructor), the pattern contains no '*', --upgradeable is
set, and the resolved set is empty or its first package's
classification is neither automatic- nor manual-upgrade; otherwise the
run exits 0, and a cache-load failure or a diagnostic error exits 1. -/
theorem claim_C7_amended :
    (∀ (opts : Opts) (prio : Nat → Int) (sources : List SourceEntry)
       (cacheFiles : List OriginFile) (allPkgs : List Pkg) (pat : String),
       opts.noHold = false → opts.upgradesOnly = true →
       main_exit true false opts none false true prio sources cacheFiles allPkgs
         [⟨pat, Constructor.unknown, []⟩] =
         some (if pat.toList.contains '*' = false then 2 else 0))
    ∧
    (∀ (opts : Opts) (prio : Nat → Int) (sources : List SourceEntry)
       (cacheFiles : List OriginFile) (allPkgs : List Pkg) (pat : String)
       (ctor : Constructor) (p : Pkg) (ps : List Pkg) (st : UpgradeState) (m' : Memo),
       opts.noHold = false →
       run_pkgs opts prio sources cacheFiles (p :: ps)
         (opts.regexAll || (ctor == Constructor.unknown)) [] = some m' →
       determine_upgradeability p.versions p.currentIdx (getCandidate p) = some st →
       main_exit true false opts none false true prio sources cacheFiles allPkgs
         [⟨pat, ctor, p :: ps⟩] =
         some (if ctor = Constructor.unknown ∧ opts.upgradesOnly = true ∧
             pat.toList.contains '*' = false ∧ stateRank st < 4 then 2 else 0))
    ∧
    (∀ (opts : Opts) (packageRes : Option PatternResult) (initCache : Bool)
       (prio : Nat → Int) (sources : List SourceEntry) (cacheFiles : List OriginFile)
       (allPkgs : List Pkg) (patterns0 : List PatternResult),
       main_exit true false opts packageRes initCache false prio sources cacheFiles
         allPkgs patterns0 = some 1)
    ∧
    (∀ (opts : Opts) (r : PatternResult) (rest : List PatternResult)
       (initCache : Bool) (prio : Nat → Int) (sources : List SourceEntry)
       (cacheFiles : List OriginFile) (allPkgs : List Pkg),
       opts.noHold = true →
       main_exit true false opts none initCache true prio sources cacheFiles allPkgs
         (r :: rest) = some 1) := by
  refine ⟨?_, ?_, ?_, ?_⟩
  · intro opts prio sources cacheFiles allPkgs pat hnh hup
    rw [main_exit_one_pattern opts prio sources cacheFiles allPkgs
      ⟨pat, Constructor.unknown, []⟩ hnh]
    rw [main_loop_single opts prio sources cacheFiles ⟨pat, Constructor.unknown, []⟩
      [] rfl]
    by_cases hmem : '*' ∈ pat.data
    · simp [hup, hmem]
    · simp [hup, hmem]
  · intro opts prio sources cacheFiles allPkgs pat ctor p ps st m' hnh hrun hcl
    rw [main_exit_one_pattern opts prio sources cacheFiles allPkgs
      ⟨pat, ctor, p :: ps⟩ hnh]
    rw [main_loop_single opts prio sources cacheFiles ⟨pat, ctor, p :: ps⟩ m' hrun]
    by_cases h1 : ctor = Constructor.unknown <;>
      by_cases h2 : opts.upgradesOnly = true <;>
      by_cases hmem : '*' ∈ pat.data <;>
      by_cases hst : stateRank st < 4 <;>
      simp [h1, h2, hmem, hst, hcl]
  · intro opts packageRes initCache prio sources cacheFiles allPkgs patterns0
    simp [main_exit]
  · intro opts r rest initCache prio sources cacheFiles allPkgs hnh
    simp [main_exit, hnh]

/-- Witness for C7 (amended): one literal pattern resolving to no
package with --upgradeable exits 2. -/
theorem claim_C7_amended_witness :
    main_exit true false upOpts none false true prio500 [] [] []
      [⟨"baz", Constructor.unknown, []⟩] = some 2 := by
  have h := claim_C7_amended.1 upOpts prio500 [] [] [] "baz" rfl rfl
  exact h.trans (by decide)

/-- C8 (counterexample): invoked with no pattern and a cache that fails
to load, the process exits 1, not the claimed 2. -/
theorem claim_C8_counterexample :
    main_exit true false defOpts none false false prio500 [] [] [] [] = some 1
    ∧ (1 : Nat) ≠ 2 := by
  refine ⟨by decide, by decide⟩

/-- C8 (amended): when the cache fails to load the process exits 1 — with
or without patterns; there is no legacy exit-2 path for a cache-load
failure in this code. -/
theorem claim_C8_amended :
    ∀ (opts : Opts) (packageRes : Option PatternResult) (initCache : Bool)
      (prio : Nat → Int) (sources : List SourceEntry) (cacheFiles : List OriginFile)
      (allPkgs : List Pkg) (patterns0 : List PatternResult),
      main_exit true false opts packageRes initCache false prio sources cacheFiles
        allPkgs patterns0 = some 1 := by
  intro opts packageRes initCache prio sources cacheFiles allPkgs patterns0
  simp [main_exit]

/-- C10: one plain-name pattern (unknown constructor, no '*') together
with --upgradeable and an empty resolved set exits 2, just like a
resolved non-upgradable package. -/
theorem claim_C10_empty_resolution :
    ∀ (opts : Opts) (prio : Nat → Int) (sources : List SourceEntry)
      (cacheFiles : List OriginFile) (allPkgs : List Pkg) (pat : String),
      opts.noHold = false → opts.upgradesOnly = true →
      pat.toList.contains '*' = false →
      main_exit true false opts none false true prio sources cacheFiles allPkgs
        [⟨pat, Constructor.unknown, []⟩] = some 2 := by
  intro opts prio sources cacheFiles allPkgs pat hnh hup hstar
  rw [main_exit_one_pattern opts prio sources cacheFiles allPkgs
    ⟨pat, Constructor.unknown, []⟩ hnh]
  rw [main_loop_single opts prio sources cacheFiles ⟨pat, Constructor.unknown, []⟩
    [] rfl]
  have hmem : ¬('*' ∈ pat.data) := by simpa using hstar
  simp [hup, hmem]

/-- Witness for C10 at the pattern "baz". -/
theorem claim_C10_empty_resolution_witness :
    main_exit true false upOpts none false true prio500 [] [] []
      [⟨"baz", Constructor.unknown, []⟩] = some 2 :=
  claim_C10_empty_resolution upOpts prio500 [] [] [] "baz" rfl rfl (by decide)

end AptShowVersions
